import Mathlib

/-!
Verification of the Panini page-data assembly and rendering orchestration pipeline.

The definitions below are a shallow embedding of the core source file (the
Panini class: constructor, setup, onReady, getPageData, getHelpers, compile,
compileStream).  JavaScript objects are modelled as association lists of
string keys and JSON-like values; helper functions injected into page data
are modelled as an abstract Helper datatype recording the closure each
helper captures.  Stateful, event-driven lifecycle code (setup / onReady /
compile) is modelled as a labelled transition system whose atomic steps are
exactly the synchronous segments of the JavaScript source.
-/

mutual

/-- A JavaScript value as it appears in page data: primitives, arrays,
plain objects (association lists, keys unique as in JS objects), the
two JS empty values, and functions (helpers, kept abstract). -/
inductive JValue where
  | str (s : String)
  | num (n : Int)
  | bool (b : Bool)
  | null
  | undefined
  | arr (elems : List JValue)
  | obj (pairs : List (String × JValue))
  | fn (h : Helper)

/-- A helper function injected by getHelpers, recorded with the data its
closure captures in the source:
currentPage is bound to the basename of the page,
translate is closed over the locale table and the locale of the page,
repeatH is the repeat block helper required at the top of the file, and
generic names one entry of the external template-helpers library. -/
inductive Helper where
  | currentPage (page : String)
  | translate (localeData : JValue) (locale : JValue)
  | repeatH
  | generic (name : String)

end

/-- First-match lookup in an association list (JS object property read). -/
def jlookup : List (String × JValue) → String → Option JValue
  | [], _ => none
  | (k0, v0) :: rest, k => if k0 = k then some v0 else jlookup rest k

/-- Keys of an association list, in order. -/
def keysOf (l : List (String × JValue)) : List String :=
  l.map Prod.fst

/-- Property presence test (the JS `in` operator on plain objects). -/
def hasKey (l : List (String × JValue)) (k : String) : Bool :=
  (jlookup l k).isSome

/-- A single JS property write `target[k] = v`: updates the value in place
if the key exists (keys keep their insertion position in JS objects),
otherwise appends the new key at the end. -/
def setKey : List (String × JValue) → String → JValue → List (String × JValue)
  | [], k, v => [(k, v)]
  | (k0, v0) :: rest, k, v =>
      if k0 = k then (k0, v) :: rest else (k0, v0) :: setKey rest k v

/-- Object.assign(target, source): assigns every own property of the
source to the target, in source order (later sources win on collisions). -/
def assign (t s : List (String × JValue)) : List (String × JValue) :=
  s.foldl (fun acc kv => setKey acc kv.1 kv.2) t

/-- The deepmerge package's isMergeableObject test for the default
options: plain objects and arrays merge, everything else is replaced. -/
def isMergeable : JValue → Bool
  | .obj _ => true
  | .arr _ => true
  | _ => false

/-- JS truthiness, as used by the short-circuit operators in the source. -/
def truthy : JValue → Bool
  | .str s => decide (s ≠ "")
  | .num n => decide (n ≠ 0)
  | .bool b => b
  | .null => false
  | .undefined => false
  | .arr _ => true
  | .obj _ => true
  | .fn _ => true

/-- The JS `&&` operator: first operand if falsy, otherwise the second. -/
def jsAnd (a b : JValue) : JValue := if truthy a then b else a

/-- The JS `||` operator: first operand if truthy, otherwise the second. -/
def jsOr (a b : JValue) : JValue := if truthy a then a else b

/-- JS property access `v[k]`, as used on file.data: undefined when the
key is missing or the value is not an object. -/
def getPropJS : JValue → String → JValue
  | .obj pairs, k => (jlookup pairs k).getD .undefined
  | _, _ => .undefined

/-- Property read used inside deepmerge (propertyIsOnObject): some value
when the key is an own property of an object, none otherwise. -/
def getPropJV : JValue → String → Option JValue
  | .obj pairs, k => jlookup pairs k
  | _, _ => none

/-- getKeys of deepmerge's mergeObject applied to the target: the target's
own pairs when it is mergeable, nothing otherwise (cloning is the identity
in this pure model). -/
def baseKeys : JValue → List (String × JValue)
  | .obj pairs => pairs
  | _ => []

mutual

/-- The deepmerge package (default options) as called at the front-matter
merge step: arrays concatenate, mismatched array-ness keeps the source,
and otherwise mergeObject combines the two key by key.  A non-object,
non-array source contributes no keys, so that case reduces to the cloned
target keys. -/
def deepmerge : JValue → JValue → JValue
  | .arr ta, .arr sa => .arr (ta ++ sa)
  | .arr _, s => s
  | _, .arr sa => .arr sa
  | t, .obj spairs => .obj (mergePairs t (baseKeys t) spairs)
  | t, _ => .obj (baseKeys t)
termination_by _ s => sizeOf s
decreasing_by
  all_goals simp_wf

/-- mergeObject's loop over the source keys: for each source key, if the
key is on the target and the source value is mergeable, recurse; otherwise
the (cloned) source value is written.  The membership test is against the
original target t, while writes accumulate in dest. -/
def mergePairs (t : JValue) : List (String × JValue) → List (String × JValue) → List (String × JValue)
  | dest, [] => dest
  | dest, (k, v) :: rest =>
      let newVal :=
        match getPropJV t k, isMergeable v with
        | some tv, true => deepmerge tv v
        | _, _ => v
      mergePairs t (setKey dest k newVal) rest
termination_by _ spairs => sizeOf spairs
decreasing_by
  all_goals simp_wf
  all_goals omega

end

/-- deepmerge of two plain objects, exposed at the association-list level
(the shape in which getPageData line 233 calls it: both operands there are
plain objects). -/
def deepmergeObjs (t s : List (String × JValue)) : List (String × JValue) :=
  mergePairs (.obj t) t s

/-- Split a character list on the path separator (structurally, so that
concrete page names evaluate definitionally). -/
def splitSlash : List Char → List (List Char)
  | [] => [[]]
  | c :: rest =>
      if c = '/' then [] :: splitSlash rest
      else
        match splitSlash rest with
        | [] => [[c]]
        | seg :: segs => (c :: seg) :: segs

/-- The last path segment (path.basename without an extension argument). -/
def lastSeg (p : String) : String :=
  String.mk (((splitSlash p.toList).getLast?).getD p.toList)

/-- Strip the extension computed by path.extname from a basename: the
suffix starting at the last dot, unless that dot is the leading character
(dotfiles have no extension in Node). -/
def dropExt (b : String) : String :=
  let cs := b.toList
  match cs.reverse.findIdx? (· = '.') with
  | none => b
  | some i => if i = cs.length - 1 then b else String.mk (cs.take (cs.length - 1 - i))

/-- path.basename(p, path.extname(p)), the idiom the source uses for both
page names (line 213) and data-file names (line 107). -/
def basenameNoExt (p : String) : String :=
  dropExt (lastSeg p)

/-- A Vinyl file as getPageData receives it: its path and the data
attached by upstream Gulp stream plugins (undefined when absent). -/
structure VFile where
  path : String
  data : JValue

/-- The capability flags the source reads off the engine adapter:
engine.supports("layouts") at line 215 and engine.i18n at line 261.
The adapters themselves are external collaborators. -/
structure EngineCaps where
  supportsLayouts : Bool
  i18n : Bool

/-- The mutable per-setup fields the Panini class keeps on its engine:
global data, the locale table of folderToObject, the locale name list and
the collections mapping (lines 98, 99, 109, 114, 115, 129). -/
structure EngineState where
  data : List (String × JValue)
  localeData : JValue
  locales : List String
  collections : List (String × JValue)

/-- The configuration options getPageData and getHelpers consult:
the engine name string, the builtins switch and the input folder. -/
structure Options where
  engine : String
  builtins : Bool
  input : String

/-- External collaborators required at the top of the source file and kept
abstract here: getLayout (layout resolution), path-prefix, and the name
set of the template-helpers library. -/
structure Collab where
  getLayout : VFile → List (String × JValue) → Options → JValue
  rootPrefixFn : String → String → String
  templateHelperNames : List String

/-- The pages folder name from the folders module (external constant). -/
def foldersPages : String := "pages"

/-- path.join as used at line 217, kept as plain concatenation: its result
only feeds the abstract path-prefix collaborator. -/
def pathJoin (a b : String) : String := a ++ "/" ++ b

/-- getHelpers (source lines 249-273): nothing if builtins are disabled;
otherwise currentPage bound to the page basename, translate closed over
the locale table and the page locale when engine.i18n and file.data and
file.data.paniniLocale are all truthy, and then either repeat (spread
before the core helpers) for the handlebars engine or the entire
template-helpers library (spread after the core helpers) otherwise. -/
def getHelpers (opts : Options) (caps : EngineCaps) (st : EngineState) (ext : Collab)
    (file : VFile) : List (String × JValue) :=
  if !opts.builtins then []
  else
    let coreHelpers : List (String × JValue) :=
      [("currentPage", .fn (.currentPage (basenameNoExt file.path)))]
    let coreHelpers :=
      if caps.i18n && truthy file.data && truthy (getPropJS file.data "paniniLocale") then
        setKey coreHelpers "translate"
          (.fn (.translate st.localeData (getPropJS file.data "paniniLocale")))
      else coreHelpers
    if opts.engine = "handlebars" then
      assign [("repeat", .fn .repeatH)] coreHelpers
    else
      assign (assign [] coreHelpers)
        (ext.templateHelperNames.map fun n => (n, .fn (.generic n)))

/-- The page constants object literal of getPageData (lines 211-222).
The layout entry is the JS value of supports("layouts") && getLayout(...):
the boolean false when the engine has no layout support.  The locale entry
is file.data && file.data.paniniLocale.  The error marker is always a
property of this literal, undefined when no error was passed. -/
def pageConstants (opts : Options) (caps : EngineCaps) (ext : Collab) (file : VFile)
    (attributes : List (String × JValue)) (error : JValue) : List (String × JValue) :=
  [("page", .str (basenameNoExt file.path)),
   ("layout", if caps.supportsLayouts then ext.getLayout file attributes opts else .bool false),
   ("root", .str (ext.rootPrefixFn file.path (pathJoin opts.input foldersPages))),
   ("locale", jsAnd file.data (getPropJS file.data "paniniLocale")),
   ("_paniniError", error)]

/-- The names of the page constants, in the order of the object literal. -/
def constantKeys : List String :=
  ["page", "layout", "root", "locale", "_paniniError"]

/-- The pairs contributed by file.data || {} at line 229 (a non-object
contributes no own enumerable properties to Object.assign). -/
def filePairs (file : VFile) : List (String × JValue) :=
  match jsOr file.data (.obj []) with
  | .obj pairs => pairs
  | _ => []

/-- getPageData (source lines 210-237): Object.assign({}, engine.data,
file.data || {}), then deepmerge with the front matter, then
Object.assign(data, constants, getHelpers(file)). -/
def getPageData (opts : Options) (caps : EngineCaps) (st : EngineState) (ext : Collab)
    (file : VFile) (attributes : List (String × JValue)) (error : JValue) :
    List (String × JValue) :=
  let data0 := assign (assign [] st.data) (filePairs file)
  let data1 := deepmergeObjs data0 attributes
  assign (assign data1 (pageConstants opts caps ext file attributes error))
    (getHelpers opts caps st ext file)

/-- One immediate child folder of the collections directory as the
collection-loading step (setup lines 117-131) observes it: its basename,
the tryRequire result for its configuration module (none when the module
is absent or invalid), and the glob matches for template.* in glob order,
each with the file contents readFile would return. -/
structure CollDir where
  name : String
  config : Option (List (String × JValue))
  templateMatches : List (String × String)

/-- The collection-loading step of setup (lines 117-131), recursing over
the child folders with the collections mapping accumulated so far: a
folder without a loadable configuration module is skipped silently; for a
folder with one, readFile(res[0]) reads the first glob match of
template.*, and rejects the whole load when there is no match at all
(readFile of undefined); the entry stored is
Object.assign({}, module, {template: contents}). -/
def loadCollections : List CollDir → List (String × JValue) →
    Except String (List (String × JValue))
  | [], acc => .ok acc
  | d :: rest, acc =>
      match d.config with
      | none => loadCollections rest acc
      | some cfg =>
          match d.templateMatches with
          | [] => .error "readFile of undefined: no template.* match"
          | (_, contents) :: _ =>
              loadCollections rest
                (setKey acc d.name (.obj (assign (assign [] cfg) [("template", .str contents)])))

/-- The data-file loading step of setup (lines 104-111): each discovered
file stores its parsed contents under its basename with the extension
stripped, starting from the empty mapping installed at line 98. -/
def loadData (files : List (String × JValue)) : List (String × JValue) :=
  files.foldl (fun acc pc => setKey acc (basenameNoExt pc.1) pc.2) []

/-- The project folder contents one setup call reads: the discovered data
files with their parsed contents, the folderToObject result for the
locales folder, and the collection child folders. -/
structure FileSys where
  dataFiles : List (String × JValue)
  localeObj : List (String × JValue)
  collectionDirs : List CollDir

/-- The effect of one successful setup call (lines 92-136) on the engine
state: lines 98-99 first install fresh empty mappings, then the loads
repopulate every field from the filesystem alone.  Any collection-loading
failure rejects the whole call. -/
def setupState (st : EngineState) (fs : FileSys) : Except String EngineState :=
  let st0 : EngineState := { st with data := [], collections := [] }
  match loadCollections fs.collectionDirs [] with
  | .error e => .error e
  | .ok colls =>
      .ok { st0 with
        data := loadData fs.dataFiles,
        localeData := .obj fs.localeObj,
        locales := fs.localeObj.map Prod.fst,
        collections := colls }

/-- getPageData with the engine state threaded explicitly, statement by
statement: line 227 reads this.engine.data, line 249 getHelpers reads
this.engine.localeData, and no statement of getPageData or getHelpers
assigns to any engine field.  The Object.assign of line 224 targets the
fresh object literal, and the one of line 236 targets the fresh object
deepmerge returned at line 233, so the returned state is the input state. -/
def getPageDataSt (opts : Options) (caps : EngineCaps) (ext : Collab)
    (st : EngineState) (file : VFile) (attributes : List (String × JValue))
    (error : JValue) : EngineState × List (String × JValue) :=
  let globalData := st.data
  let data0 := assign (assign [] globalData) (filePairs file)
  let data1 := deepmergeObjs data0 attributes
  (st, assign (assign data1 (pageConstants opts caps ext file attributes error))
    (getHelpers opts caps st ext file))

/-- Modelled from the spec: the render orchestrator of section 4.6 lives
in render.js, which is not among the available source files.  Per the
spec it assembles the data object of every discovered page through the
page data assembler and hands it to the engine, capturing per-page errors
in band; it reads the shared engine state and never writes it.  Each page
is given here as its Vinyl file, parsed front matter and optional parse
error, exactly the triple the source passes to getPageData. -/
def renderAllSt (opts : Options) (caps : EngineCaps) (ext : Collab)
    (st : EngineState) (pages : List (VFile × List (String × JValue) × JValue)) :
    EngineState × List (List (String × JValue)) :=
  (st, pages.map fun pg => (getPageDataSt opts caps ext st pg.1 pg.2.1 pg.2.2).2)

/-- The four loads setup fans out at lines 102-131: the engine setup hook,
the data files, the locale folder and the collection folders. -/
inductive LoadTask where
  | engineSetup
  | dataLoad
  | localeLoad
  | collectionLoad
deriving DecidableEq

/-- The Promise.all argument list of setup, in source order. -/
def allTasks : List LoadTask :=
  [.engineSetup, .dataLoad, .localeLoad, .collectionLoad]

/-- The lifecycle events of the coordinator that the claims mention:
setup_start (line 97), setup_done (line 134) and error (lines 290, 314). -/
inductive Ev where
  | setup_start
  | setup_done
  | errorEv
deriving DecidableEq

/-- Settlement of one setup() promise: resolved after the barrier, or
rejected as soon as one of the fanned-out loads rejects. -/
inductive Outcome where
  | resolved
  | rejected
deriving DecidableEq

/-- The coordinator state of the labelled transition system: the ready
flag (line 54, 96, 133), the once-listeners registered on setup_done by
suspended compile chains (line 149), the in-flight setup (its unfinished
loads plus a flag recording whether one of them already rejected), the
compile chains that have started rendering, the emitted event log, and
the settlement of each setup() promise so far. -/
structure CoState where
  ready : Bool
  waiters : List Nat
  pending : Option (List LoadTask × Bool)
  renders : List Nat
  log : List Ev
  outcomes : List Outcome
deriving DecidableEq

/-- The coordinator state right after construction (line 54): not ready,
nothing registered, no setup in flight. -/
def initState : CoState :=
  { ready := false, waiters := [], pending := none,
    renders := [], log := [], outcomes := [] }

/-- Labels of the atomic synchronous segments of the coordinator. -/
inductive Lab where
  | setupCall
  | taskDone (t : LoadTask)
  | taskFail (t : LoadTask)
  | setupFinish
  | setupAbort
  | compileCall (c : Nat)
  | chainError (c : Nat)
deriving DecidableEq

/-- One atomic synchronous segment of the coordinator, labelled.

setup_call is the synchronous prefix of setup() (lines 96-103): ready
becomes false, setup_start is emitted and the four loads are launched.
A new cycle starts only once the previous one has settled, matching the
sequential build passes of the claims.

task_done and task_fail are the asynchronous completion of one load;
the first rejection settles the setup() promise as rejected (Promise.all
rejects at the first component rejection), later completions of the
remaining in-flight loads change nothing further.

setup_finish is the Promise.all continuation (lines 132-135), enabled
only when every load has resolved and none rejected: ready becomes true,
setup_done is emitted once, and emitting it fires every once-listener, so
every suspended compile proceeds to render.  setup_abort closes a cycle
whose Promise.all rejected: no continuation runs, ready stays false and
the once-listeners stay registered.

compile_ready and compile_call model compile()/compileStream() (lines
280-291, 297-317): both call onReady() (lines 142-152), which resolves at
once when ready is true, letting the chain render immediately, and
otherwise registers a once-listener on setup_done.  chain_error is the
catch handler of the compile chain (lines 290, 314), which emits the
error event when rendering or writing of an already-started chain
rejects; onReady() itself exposes no rejection path. -/
inductive Step : CoState → Lab → CoState → Prop where
  | setup_call (s : CoState) (h : s.pending = none) :
      Step s .setupCall
        { s with ready := false, pending := some (allTasks, false),
                 log := s.log ++ [.setup_start] }
  | task_done (s : CoState) (ts : List LoadTask) (failed : Bool) (t : LoadTask)
      (hp : s.pending = some (ts, failed)) (ht : t ∈ ts) :
      Step s (.taskDone t) { s with pending := some (ts.erase t, failed) }
  | task_fail_first (s : CoState) (ts : List LoadTask) (t : LoadTask)
      (hp : s.pending = some (ts, false)) (ht : t ∈ ts) :
      Step s (.taskFail t)
        { s with pending := some (ts.erase t, true),
                 outcomes := s.outcomes ++ [.rejected] }
  | task_fail_more (s : CoState) (ts : List LoadTask) (t : LoadTask)
      (hp : s.pending = some (ts, true)) (ht : t ∈ ts) :
      Step s (.taskFail t) { s with pending := some (ts.erase t, true) }
  | setup_finish (s : CoState) (hp : s.pending = some ([], false)) :
      Step s .setupFinish
        { s with ready := true, pending := none, waiters := [],
                 renders := s.renders ++ s.waiters,
                 log := s.log ++ [.setup_done],
                 outcomes := s.outcomes ++ [.resolved] }
  | setup_abort (s : CoState) (hp : s.pending = some ([], true)) :
      Step s .setupAbort { s with pending := none }
  | compile_ready (s : CoState) (c : Nat) (h : s.ready = true)
      (hc1 : c ∉ s.waiters) (hc2 : c ∉ s.renders) :
      Step s (.compileCall c) { s with renders := s.renders ++ [c] }
  | compile_wait (s : CoState) (c : Nat) (h : s.ready = false)
      (hc1 : c ∉ s.waiters) (hc2 : c ∉ s.renders) :
      Step s (.compileCall c) { s with waiters := s.waiters ++ [c] }
  | chain_error (s : CoState) (c : Nat) (h : c ∈ s.renders) :
      Step s (.chainError c) { s with log := s.log ++ [.errorEv] }

/-- A finite run of the coordinator: the state reached after a given
sequence of labelled steps. -/
inductive Run : CoState → List Lab → CoState → Prop where
  | nil (s : CoState) : Run s [] s
  | cons {s s' s'' : CoState} {l : Lab} {labs : List Lab}
      (h : Step s l s') (hr : Run s' labs s'') : Run s (l :: labs) s''

/-- The value mergeObject writes for one source key: the recursive merge
when the key is on the target and the source value is mergeable, the
source value otherwise (standalone restatement of the match inside
mergePairs, for use in lemma statements). -/
def mergeValue (t : JValue) (k : String) (v : JValue) : JValue :=
  match getPropJV t k, isMergeable v with
  | some tv, true => deepmerge tv v
  | _, _ => v

/-- Concrete fixtures used by witnesses and counterexamples. -/
def exOpts : Options := { engine := "handlebars", builtins := true, input := "src" }

def exOptsPug : Options := { engine := "pug", builtins := true, input := "src" }

def exOptsNoBuiltins : Options := { engine := "handlebars", builtins := false, input := "src" }

def exCaps : EngineCaps := { supportsLayouts := true, i18n := false }

def exCapsNoLayout : EngineCaps := { supportsLayouts := false, i18n := false }

def exCapsI18n : EngineCaps := { supportsLayouts := true, i18n := true }

def exSt : EngineState :=
  { data := [("site", .obj [("title", .str "X")]), ("title2", .num 1)],
    localeData := .obj [("en", .obj [("greeting", .str "hi")])],
    locales := ["en"],
    collections := [] }

def exCollab : Collab :=
  { getLayout := fun _ _ _ => .str "default",
    rootPrefixFn := fun _ _ => "",
    templateHelperNames := ["first", "last"] }

def exFile : VFile := { path := "pages/index.hbs", data := .undefined }

def exFileLocale : VFile :=
  { path := "pages/about.hbs", data := .obj [("paniniLocale", .str "en")] }

theorem keysOf_cons (k0 : String) (v0 : JValue) (rest : List (String × JValue)) :
    keysOf ((k0, v0) :: rest) = k0 :: keysOf rest := rfl

theorem jlookup_eq_none_iff (l : List (String × JValue)) (k : String) :
    jlookup l k = none ↔ k ∉ keysOf l := by
  induction l with
  | nil => simp [jlookup, keysOf]
  | cons p rest ih =>
    obtain ⟨k0, v0⟩ := p
    rw [keysOf_cons]
    by_cases h : k0 = k
    · subst h
      simp [jlookup]
    · have h' : ¬ (k = k0) := fun hk => h hk.symm
      rw [jlookup, if_neg h, ih]
      simp [List.mem_cons, h']

theorem jlookup_setKey_self (l : List (String × JValue)) (k : String) (v : JValue) :
    jlookup (setKey l k v) k = some v := by
  induction l with
  | nil => simp [setKey, jlookup]
  | cons p rest ih =>
    obtain ⟨k0, v0⟩ := p
    by_cases h : k0 = k
    · simp [setKey, jlookup, h]
    · simp [setKey, jlookup, h, ih]

theorem jlookup_setKey_ne (l : List (String × JValue)) (k : String) (v : JValue)
    (k' : String) (h : k' ≠ k) :
    jlookup (setKey l k v) k' = jlookup l k' := by
  have h' : ¬ (k = k') := fun hk => h hk.symm
  induction l with
  | nil => simp [setKey, jlookup, h']
  | cons p rest ih =>
    obtain ⟨k0, v0⟩ := p
    by_cases h0 : k0 = k
    · subst h0
      simp [setKey, jlookup, h']
    · simp [setKey, jlookup, h0, ih]

theorem assign_cons (t : List (String × JValue)) (k : String) (v : JValue)
    (s : List (String × JValue)) :
    assign t ((k, v) :: s) = assign (setKey t k v) s := rfl

theorem jlookup_assign_notin (t s : List (String × JValue)) (k : String)
    (h : k ∉ keysOf s) :
    jlookup (assign t s) k = jlookup t k := by
  induction s generalizing t with
  | nil => rfl
  | cons p rest ih =>
    obtain ⟨k0, v0⟩ := p
    simp only [keysOf, List.map_cons, List.mem_cons, not_or] at h
    rw [assign_cons, ih _ (by simpa [keysOf] using h.2), jlookup_setKey_ne _ _ _ _ h.1]

theorem jlookup_assign_mem (t s : List (String × JValue)) (k : String) (v : JValue)
    (hn : (keysOf s).Nodup) (h : jlookup s k = some v) :
    jlookup (assign t s) k = some v := by
  induction s generalizing t with
  | nil => simp [jlookup] at h
  | cons p rest ih =>
    obtain ⟨k0, v0⟩ := p
    simp only [keysOf, List.map_cons, List.nodup_cons] at hn
    by_cases h0 : k0 = k
    · subst h0
      simp only [jlookup, if_pos rfl] at h
      cases h
      rw [assign_cons, jlookup_assign_notin _ _ _ (by simpa [keysOf] using hn.1),
        jlookup_setKey_self]
    · simp only [jlookup, if_neg h0] at h
      rw [assign_cons, ih _ hn.2 h]

theorem jlookup_assign_nil (s : List (String × JValue)) (k : String)
    (hn : (keysOf s).Nodup) :
    jlookup (assign [] s) k = jlookup s k := by
  cases h : jlookup s k with
  | some v => rw [jlookup_assign_mem _ _ _ _ hn h]
  | none =>
    rw [jlookup_assign_notin _ _ _ ((jlookup_eq_none_iff _ _).mp h)]
    rfl

theorem mergePairs_cons (t : JValue) (dest : List (String × JValue)) (k : String)
    (v : JValue) (rest : List (String × JValue)) :
    mergePairs t dest ((k, v) :: rest) = mergePairs t (setKey dest k (mergeValue t k v)) rest := by
  rw [mergePairs, mergeValue]

theorem mergePairs_lookup_notin (t : JValue) (dest spairs : List (String × JValue))
    (k : String) (h : k ∉ keysOf spairs) :
    jlookup (mergePairs t dest spairs) k = jlookup dest k := by
  induction spairs generalizing dest with
  | nil => rw [mergePairs]
  | cons p rest ih =>
    obtain ⟨k0, v0⟩ := p
    simp only [keysOf, List.map_cons, List.mem_cons, not_or] at h
    rw [mergePairs_cons, ih _ (by simpa [keysOf] using h.2),
      jlookup_setKey_ne _ _ _ _ h.1]

theorem mergePairs_lookup_mem (t : JValue) (dest spairs : List (String × JValue))
    (k : String) (v : JValue) (hn : (keysOf spairs).Nodup) (h : jlookup spairs k = some v) :
    jlookup (mergePairs t dest spairs) k = some (mergeValue t k v) := by
  induction spairs generalizing dest with
  | nil => simp [jlookup] at h
  | cons p rest ih =>
    obtain ⟨k0, v0⟩ := p
    simp only [keysOf, List.map_cons, List.nodup_cons] at hn
    by_cases h0 : k0 = k
    · subst h0
      simp only [jlookup, if_pos rfl] at h
      cases h
      rw [mergePairs_cons, mergePairs_lookup_notin _ _ _ _ (by simpa [keysOf] using hn.1),
        jlookup_setKey_self]
    · simp only [jlookup, if_neg h0] at h
      rw [mergePairs_cons, ih _ hn.2 h]

theorem mergeValue_not_mergeable (t : JValue) (k : String) (v : JValue)
    (h : isMergeable v = false) : mergeValue t k v = v := by
  rw [mergeValue]
  cases hp : getPropJV t k <;> simp [h]

theorem mergeValue_notin_target (t : JValue) (k : String) (v : JValue)
    (h : getPropJV t k = none) : mergeValue t k v = v := by
  rw [mergeValue, h]

theorem mergeValue_obj_obj (t : JValue) (k : String) (g f : List (String × JValue))
    (h : getPropJV t k = some (.obj g)) :
    mergeValue t k (.obj f) = deepmerge (.obj g) (.obj f) := by
  rw [mergeValue, h]
  rfl

theorem deepmerge_obj_obj (g f : List (String × JValue)) :
    deepmerge (.obj g) (.obj f) = .obj (mergePairs (.obj g) g f) := by
  simp [deepmerge, baseKeys]

theorem keysOf_pageConstants (opts : Options) (caps : EngineCaps) (ext : Collab)
    (file : VFile) (attrs : List (String × JValue)) (error : JValue) :
    keysOf (pageConstants opts caps ext file attrs error) = constantKeys := rfl

theorem getPageData_eq (opts : Options) (caps : EngineCaps) (st : EngineState)
    (ext : Collab) (file : VFile) (attrs : List (String × JValue)) (error : JValue) :
    getPageData opts caps st ext file attrs error =
      assign (assign (deepmergeObjs (assign (assign [] st.data) (filePairs file)) attrs)
        (pageConstants opts caps ext file attrs error)) (getHelpers opts caps st ext file) := rfl

theorem getPageData_lookup_low (opts : Options) (caps : EngineCaps) (st : EngineState)
    (ext : Collab) (file : VFile) (attrs : List (String × JValue)) (error : JValue)
    (K : String) (hK1 : K ∉ constantKeys)
    (hK2 : K ∉ keysOf (getHelpers opts caps st ext file)) :
    jlookup (getPageData opts caps st ext file attrs error) K =
      jlookup (deepmergeObjs (assign (assign [] st.data) (filePairs file)) attrs) K := by
  rw [getPageData_eq, jlookup_assign_notin _ _ _ hK2,
    jlookup_assign_notin _ _ _ (by rw [keysOf_pageConstants]; exact hK1)]

theorem keysOf_map_self (l : List String) (f : String → JValue) :
    keysOf (l.map fun n => (n, f n)) = l := by
  induction l with
  | nil => rfl
  | cons a rest ih =>
    simp only [List.map_cons, keysOf_cons]
    rw [show keysOf (rest.map fun n => (n, f n)) = rest from ih]

theorem jlookup_map_self (l : List String) (f : String → JValue) (n : String)
    (h : n ∈ l) :
    jlookup (l.map fun m => (m, f m)) n = some (f n) := by
  induction l with
  | nil => cases h
  | cons a rest ih =>
    by_cases ha : a = n
    · subst ha
      simp [jlookup]
    · rcases List.mem_cons.mp h with rfl | hm
      · exact absurd rfl ha
      · simp only [List.map_cons, jlookup, if_neg ha]
        exact ih hm

/-- C1: for every page the assembled page data spreads global data, then
the file-level attributes, then deep-merges the front matter over that:
on a key that no page constant or helper shadows, a non-mergeable (scalar)
front-matter value is the assembled value outright, and when both global
data and front matter hold plain objects under the key the assembled
value combines them key by key, the front matter winning on scalar
conflicts and each side keeping its exclusive keys; the concrete spec
scenario global site = (title X), front matter site = (author Y)
assembles site = (title X, author Y). -/
theorem c1_page_data_merge (opts : Options) (caps : EngineCaps) (st : EngineState)
    (ext : Collab) (file : VFile) (attrs : List (String × JValue)) (error : JValue)
    (K : String)
    (hK1 : K ∉ constantKeys)
    (hK2 : K ∉ keysOf (getHelpers opts caps st ext file))
    (hA : (keysOf attrs).Nodup) :
    (∀ v, jlookup attrs K = some v → isMergeable v = false →
      jlookup (getPageData opts caps st ext file attrs error) K = some v) ∧
    (∀ g f, jlookup st.data K = some (.obj g) → jlookup attrs K = some (.obj f) →
      K ∉ keysOf (filePairs file) → (keysOf st.data).Nodup →
      (keysOf g).Nodup → (keysOf f).Nodup →
      ∃ m, jlookup (getPageData opts caps st ext file attrs error) K = some (.obj m) ∧
        (∀ j w, jlookup f j = some w → isMergeable w = false → jlookup m j = some w) ∧
        (∀ j w, jlookup g j = some w → j ∉ keysOf f → jlookup m j = some w) ∧
        (∀ j w, jlookup f j = some w → j ∉ keysOf g → jlookup m j = some w)) ∧
    jlookup (getPageData exOpts exCaps exSt exCollab exFile
        [("site", .obj [("author", .str "Y")])] .undefined) "site"
      = some (.obj [("title", .str "X"), ("author", .str "Y")]) := by
  refine ⟨?_, ?_, ?_⟩
  · intro v hv hnm
    rw [getPageData_lookup_low _ _ _ _ _ _ _ _ hK1 hK2, deepmergeObjs,
      mergePairs_lookup_mem _ _ _ _ _ hA hv, mergeValue_not_mergeable _ _ _ hnm]
  · intro g f hg hf hKfile hndata hng hnf
    rw [getPageData_lookup_low _ _ _ _ _ _ _ _ hK1 hK2, deepmergeObjs]
    have hdata0 : jlookup (assign (assign [] st.data) (filePairs file)) K = some (.obj g) := by
      rw [jlookup_assign_notin _ _ _ hKfile, jlookup_assign_nil _ _ hndata, hg]
    refine ⟨mergePairs (.obj g) g f, ?_, ?_, ?_, ?_⟩
    · rw [mergePairs_lookup_mem _ _ _ _ _ hA hf,
        mergeValue_obj_obj _ _ g _ (by rw [getPropJV, hdata0]), deepmerge_obj_obj]
    · intro j w hw hnm
      rw [mergePairs_lookup_mem _ _ _ _ _ hnf hw, mergeValue_not_mergeable _ _ _ hnm]
    · intro j w hw hjf
      rw [mergePairs_lookup_notin _ _ _ _ hjf, hw]
    · intro j w hw hjg
      rw [mergePairs_lookup_mem _ _ _ _ _ hnf hw,
        mergeValue_notin_target _ _ _
          (by rw [getPropJV]; exact (jlookup_eq_none_iff g j).mpr hjg)]
  · simp [getPageData, getHelpers, pageConstants, deepmergeObjs, mergePairs, mergeValue,
      deepmerge, baseKeys, getPropJV, jlookup, setKey, assign, isMergeable, filePairs,
      jsOr, jsAnd, truthy, getPropJS, exOpts, exCaps, exSt, exCollab, exFile]

theorem c1_page_data_merge_witness :
    jlookup (getPageData exOpts exCaps exSt exCollab exFile
      [("title2", .str "Z")] .undefined) "title2" = some (.str "Z") :=
  (c1_page_data_merge exOpts exCaps exSt exCollab exFile [("title2", .str "Z")] .undefined
    "title2" (by decide) (by decide) (by decide)).1 (.str "Z") rfl rfl

/-- C2: the page constants are spread after the deep-merged data and
replace it shallowly on any key collision (the assembled value under a
constant name is exactly the constant, never a merge), and the helper
functions are spread last of all: any key of the helper mapping resolves
to the helper value in the final object, whatever the front matter or
data said under that name. -/
theorem c2_constants_then_helpers (opts : Options) (caps : EngineCaps) (st : EngineState)
    (ext : Collab) (file : VFile) (attrs : List (String × JValue)) (error : JValue)
    (hH : (keysOf (getHelpers opts caps st ext file)).Nodup) :
    (∀ K v, jlookup (getHelpers opts caps st ext file) K = some v →
      jlookup (getPageData opts caps st ext file attrs error) K = some v) ∧
    (∀ K, K ∈ constantKeys → K ∉ keysOf (getHelpers opts caps st ext file) →
      jlookup (getPageData opts caps st ext file attrs error) K =
        jlookup (pageConstants opts caps ext file attrs error) K) := by
  constructor
  · intro K v hv
    rw [getPageData_eq]
    exact jlookup_assign_mem _ _ _ _ hH hv
  · intro K hK hKh
    rw [getPageData_eq, jlookup_assign_notin _ _ _ hKh]
    cases hv : jlookup (pageConstants opts caps ext file attrs error) K with
    | some v =>
      exact jlookup_assign_mem _ _ _ _ (by rw [keysOf_pageConstants]; decide) hv
    | none =>
      exact absurd (by rw [keysOf_pageConstants]; exact hK)
        ((jlookup_eq_none_iff _ _).mp hv)

theorem c2_constants_then_helpers_witness :
    jlookup (getPageData exOpts exCaps exSt exCollab exFile
      [("currentPage", .str "shadowed"), ("locale", .obj [("x", .num 7)])] .undefined)
      "currentPage" = some (.fn (.currentPage "index")) ∧
    jlookup (getPageData exOpts exCaps exSt exCollab exFile
      [("currentPage", .str "shadowed"), ("locale", .obj [("x", .num 7)])] .undefined)
      "locale" = some .undefined := by
  have h := c2_constants_then_helpers exOpts exCaps exSt exCollab exFile
    [("currentPage", .str "shadowed"), ("locale", .obj [("x", .num 7)])] .undefined
    (by decide)
  constructor
  · exact h.1 "currentPage" (.fn (.currentPage "index")) (by rfl)
  · rw [h.2 "locale" (by decide) (by decide)]
    rfl

/-- C3 counterexample: for a page rendered with an engine that does not
support layouts, the assembled page data does carry a layout key — with
the placeholder boolean value false — so the claim that no layout value
is attached fails on this concrete page. -/
theorem c3_layout_counterexample :
    hasKey (getPageData exOpts exCapsNoLayout exSt exCollab exFile [] .undefined) "layout"
      = true ∧
    jlookup (getPageData exOpts exCapsNoLayout exSt exCollab exFile [] .undefined) "layout"
      = some (.bool false) := by
  have h : jlookup (getPageData exOpts exCapsNoLayout exSt exCollab exFile [] .undefined)
      "layout" = some (.bool false) := by
    rw [getPageData_eq, jlookup_assign_notin _ _ _ (by decide)]
    exact jlookup_assign_mem _ _ _ _ (by decide)
      (by simp [pageConstants, jlookup, exCapsNoLayout])
  exact ⟨by rw [hasKey, h]; rfl, h⟩

/-- C3 amended: for every page rendered with an engine that declares no
layout support, layout resolution is indeed skipped — the assembled data
is independent of the layout resolver — but a layout constant IS attached:
the layout key is present with the boolean value false (the value of the
short-circuit supports("layouts") && getLayout(...)), rather than absent. -/
theorem c3_layout_skipped_but_attached (opts : Options) (caps : EngineCaps)
    (st : EngineState) (ext : Collab) (file : VFile) (attrs : List (String × JValue))
    (error : JValue) (h : caps.supportsLayouts = false)
    (hh : "layout" ∉ keysOf (getHelpers opts caps st ext file)) :
    (∀ gl, getPageData opts caps st { ext with getLayout := gl } file attrs error =
      getPageData opts caps st ext file attrs error) ∧
    jlookup (getPageData opts caps st ext file attrs error) "layout"
      = some (.bool false) := by
  constructor
  · intro gl
    rw [getPageData_eq, getPageData_eq]
    simp [pageConstants, getHelpers, h]
  · rw [getPageData_eq, jlookup_assign_notin _ _ _ hh]
    exact jlookup_assign_mem _ _ _ _ (by rw [keysOf_pageConstants]; decide)
      (by simp [pageConstants, jlookup, h])

theorem c3_layout_skipped_but_attached_witness :
    jlookup (getPageData exOpts exCapsNoLayout exSt exCollab exFileLocale [] .undefined)
      "layout" = some (.bool false) :=
  (c3_layout_skipped_but_attached exOpts exCapsNoLayout exSt exCollab exFileLocale []
    .undefined rfl (by decide)).2

/-- C4 counterexample: for a page with no parse error the internal error
marker is not absent from the assembled page data: the _paniniError key is
a property of the constants object literal whatever the error argument is,
so the assembled object carries it with the JS value undefined. -/
theorem c4_error_marker_counterexample :
    hasKey (getPageData exOpts exCaps exSt exCollab exFile [] .undefined) "_paniniError"
      = true ∧
    jlookup (getPageData exOpts exCaps exSt exCollab exFile [] .undefined) "_paniniError"
      = some .undefined := by
  have h : jlookup (getPageData exOpts exCaps exSt exCollab exFile [] .undefined)
      "_paniniError" = some .undefined := by
    rw [getPageData_eq, jlookup_assign_notin _ _ _ (by decide)]
    exact jlookup_assign_mem _ _ _ _ (by decide) (by simp [pageConstants, jlookup])
  exact ⟨by rw [hasKey, h]; rfl, h⟩

/-- C4 amended: the _paniniError key is always present in the assembled
page data and holds exactly the error value getPageData was given: the
captured error object for a page whose parsing or rendering failed, and
the JS value undefined (so reading the property observes no error, though
the key itself is not absent) for a page with no parse error. -/
theorem c4_error_marker_in_band (opts : Options) (caps : EngineCaps) (st : EngineState)
    (ext : Collab) (file : VFile) (attrs : List (String × JValue)) (error : JValue)
    (hh : "_paniniError" ∉ keysOf (getHelpers opts caps st ext file)) :
    jlookup (getPageData opts caps st ext file attrs error) "_paniniError"
      = some error := by
  rw [getPageData_eq, jlookup_assign_notin _ _ _ hh]
  exact jlookup_assign_mem _ _ _ _ (by rw [keysOf_pageConstants]; decide)
    (by simp [pageConstants, jlookup])

theorem c4_error_marker_in_band_witness :
    jlookup (getPageData exOpts exCaps exSt exCollab exFile []
      (.obj [("message", .str "bad token")])) "_paniniError"
      = some (.obj [("message", .str "bad token")]) :=
  c4_error_marker_in_band exOpts exCaps exSt exCollab exFile []
    (.obj [("message", .str "bad token")]) (by decide)

/-- C5: getHelpers returns the empty mapping when builtins are disabled;
otherwise it always carries currentPage bound to the page basename, it
carries translate — closed over the locale table and the page locale —
exactly when engine internationalization is on and the page data carries
a truthy assigned locale, and it additionally carries repeat for the
handlebars engine and every entry of the generic template-helpers library
for every other engine. -/
theorem c5_helper_provisioning (opts : Options) (caps : EngineCaps) (st : EngineState)
    (ext : Collab) (file : VFile)
    (hn : ext.templateHelperNames.Nodup)
    (hc : "currentPage" ∉ ext.templateHelperNames)
    (ht : "translate" ∉ ext.templateHelperNames) :
    (opts.builtins = false → getHelpers opts caps st ext file = []) ∧
    (opts.builtins = true →
      jlookup (getHelpers opts caps st ext file) "currentPage"
        = some (.fn (.currentPage (basenameNoExt file.path)))) ∧
    (opts.builtins = true →
      hasKey (getHelpers opts caps st ext file) "translate"
        = (caps.i18n && truthy file.data && truthy (getPropJS file.data "paniniLocale"))) ∧
    (opts.builtins = true →
      (caps.i18n && truthy file.data && truthy (getPropJS file.data "paniniLocale")) = true →
      jlookup (getHelpers opts caps st ext file) "translate"
        = some (.fn (.translate st.localeData (getPropJS file.data "paniniLocale")))) ∧
    (opts.builtins = true → opts.engine = "handlebars" →
      jlookup (getHelpers opts caps st ext file) "repeat" = some (.fn .repeatH)) ∧
    (opts.builtins = true → opts.engine ≠ "handlebars" →
      ∀ n ∈ ext.templateHelperNames,
        jlookup (getHelpers opts caps st ext file) n = some (.fn (.generic n))) := by
  have hlib : keysOf (ext.templateHelperNames.map fun n => (n, JValue.fn (.generic n)))
      = ext.templateHelperNames := keysOf_map_self _ _
  have hgA : opts.builtins = true → opts.engine = "handlebars" →
      (caps.i18n && truthy file.data && truthy (getPropJS file.data "paniniLocale")) = false →
      getHelpers opts caps st ext file
        = [("repeat", JValue.fn .repeatH),
           ("currentPage", JValue.fn (.currentPage (basenameNoExt file.path)))] := by
    intro hb he hcv
    simp [getHelpers, hb, he, hcv, assign, setKey]
  have hgB : opts.builtins = true → opts.engine = "handlebars" →
      (caps.i18n && truthy file.data && truthy (getPropJS file.data "paniniLocale")) = true →
      getHelpers opts caps st ext file
        = [("repeat", JValue.fn .repeatH),
           ("currentPage", JValue.fn (.currentPage (basenameNoExt file.path))),
           ("translate", JValue.fn (.translate st.localeData (getPropJS file.data "paniniLocale")))] := by
    intro hb he hcv
    simp [getHelpers, hb, he, hcv, assign, setKey]
  have hgC : opts.builtins = true → ¬ (opts.engine = "handlebars") →
      (caps.i18n && truthy file.data && truthy (getPropJS file.data "paniniLocale")) = false →
      getHelpers opts caps st ext file
        = assign [("currentPage", JValue.fn (.currentPage (basenameNoExt file.path)))]
            (ext.templateHelperNames.map fun n => (n, JValue.fn (.generic n))) := by
    intro hb he hcv
    simp [getHelpers, hb, he, hcv, assign, setKey]
  have hgD : opts.builtins = true → ¬ (opts.engine = "handlebars") →
      (caps.i18n && truthy file.data && truthy (getPropJS file.data "paniniLocale")) = true →
      getHelpers opts caps st ext file
        = assign [("currentPage", JValue.fn (.currentPage (basenameNoExt file.path))),
                  ("translate", JValue.fn (.translate st.localeData (getPropJS file.data "paniniLocale")))]
            (ext.templateHelperNames.map fun n => (n, JValue.fn (.generic n))) := by
    intro hb he hcv
    simp [getHelpers, hb, he, hcv, assign, setKey]
  refine ⟨?_, ?_, ?_, ?_, ?_, ?_⟩
  · intro hb
    simp [getHelpers, hb]
  · intro hb
    by_cases he : opts.engine = "handlebars"
    · cases hcv : caps.i18n && truthy file.data && truthy (getPropJS file.data "paniniLocale")
      · rw [hgA hb he hcv]
        simp [jlookup]
      · rw [hgB hb he hcv]
        simp [jlookup]
    · cases hcv : caps.i18n && truthy file.data && truthy (getPropJS file.data "paniniLocale")
      · rw [hgC hb he hcv, jlookup_assign_notin _ _ _ (by rw [hlib]; exact hc)]
        simp [jlookup]
      · rw [hgD hb he hcv, jlookup_assign_notin _ _ _ (by rw [hlib]; exact hc)]
        simp [jlookup]
  · intro hb
    by_cases he : opts.engine = "handlebars"
    · cases hcv : caps.i18n && truthy file.data && truthy (getPropJS file.data "paniniLocale")
      · rw [hasKey, hgA hb he hcv]
        simp [jlookup]
      · rw [hasKey, hgB hb he hcv]
        simp [jlookup]
    · cases hcv : caps.i18n && truthy file.data && truthy (getPropJS file.data "paniniLocale")
      · rw [hasKey, hgC hb he hcv, jlookup_assign_notin _ _ _ (by rw [hlib]; exact ht)]
        simp [jlookup]
      · rw [hasKey, hgD hb he hcv, jlookup_assign_notin _ _ _ (by rw [hlib]; exact ht)]
        simp [jlookup]
  · intro hb hcv
    by_cases he : opts.engine = "handlebars"
    · rw [hgB hb he hcv]
      simp [jlookup]
    · rw [hgD hb he hcv, jlookup_assign_notin _ _ _ (by rw [hlib]; exact ht)]
      simp [jlookup]
  · intro hb he
    cases hcv : caps.i18n && truthy file.data && truthy (getPropJS file.data "paniniLocale")
    · rw [hgA hb he hcv]
      simp [jlookup]
    · rw [hgB hb he hcv]
      simp [jlookup]
  · intro hb he n hnmem
    cases hcv : caps.i18n && truthy file.data && truthy (getPropJS file.data "paniniLocale")
    · rw [hgC hb he hcv]
      exact jlookup_assign_mem _ _ _ _ (by rw [hlib]; exact hn)
        (jlookup_map_self _ _ _ hnmem)
    · rw [hgD hb he hcv]
      exact jlookup_assign_mem _ _ _ _ (by rw [hlib]; exact hn)
        (jlookup_map_self _ _ _ hnmem)

theorem c5_helper_provisioning_witness :
    getHelpers exOptsNoBuiltins exCaps exSt exCollab exFile = [] ∧
    jlookup (getHelpers exOptsPug exCapsI18n exSt exCollab exFileLocale) "translate"
      = some (.fn (.translate (.obj [("en", .obj [("greeting", .str "hi")])]) (.str "en"))) ∧
    jlookup (getHelpers exOpts exCaps exSt exCollab exFile) "repeat"
      = some (.fn .repeatH) ∧
    jlookup (getHelpers exOptsPug exCaps exSt exCollab exFile) "first"
      = some (.fn (.generic "first")) := by
  refine ⟨?_, ?_, ?_, ?_⟩
  · exact (c5_helper_provisioning exOptsNoBuiltins exCaps exSt exCollab exFile
      (by decide) (by decide) (by decide)).1 rfl
  · exact (c5_helper_provisioning exOptsPug exCapsI18n exSt exCollab exFileLocale
      (by decide) (by decide) (by decide)).2.2.2.1 rfl (by rfl)
  · exact (c5_helper_provisioning exOpts exCaps exSt exCollab exFile
      (by decide) (by decide) (by decide)).2.2.2.2.1 rfl rfl
  · exact (c5_helper_provisioning exOptsPug exCaps exSt exCollab exFile
      (by decide) (by decide) (by decide)).2.2.2.2.2 rfl (by decide) "first" (by decide)

theorem Run.snoc {s s' s'' : CoState} {labs : List Lab} {l : Lab}
    (h : Run s labs s') (hstep : Step s' l s'') : Run s (labs ++ [l]) s'' := by
  induction h with
  | nil => exact Run.cons hstep (Run.nil _)
  | cons h1 _ ih => exact Run.cons h1 (ih hstep)

theorem run_taskDones (order : List LoadTask) (b : Bool) :
    ∀ ts : List LoadTask, order.Perm ts → ∀ s : CoState, s.pending = some (ts, b) →
      Run s (order.map Lab.taskDone) { s with pending := some ([], b) } := by
  induction order with
  | nil =>
    intro ts hperm s hs
    have hts : ts = [] := hperm.symm.eq_nil
    subst hts
    obtain ⟨r, w, p, rd, lg, oc⟩ := s
    simp only at hs
    subst hs
    exact Run.nil _
  | cons t rest ih =>
    intro ts hperm s hs
    have htmem : t ∈ ts := hperm.subset (List.mem_cons_self t rest)
    have hrest : rest.Perm (ts.erase t) := (List.cons_perm_iff_perm_erase.mp hperm).2
    exact Run.cons (Step.task_done s ts b t hs htmem) (ih _ hrest _ rfl)

theorem step_start_mono {s s' : CoState} {l : Lab} (h : Step s l s') :
    s.log.count .setup_start ≤ s'.log.count .setup_start := by
  cases h <;> simp [List.count_append]

theorem run_start_mono {s s' : CoState} {labs : List Lab} (h : Run s labs s') :
    s.log.count .setup_start ≤ s'.log.count .setup_start := by
  induction h with
  | nil => exact le_refl _
  | cons h1 _ ih => exact le_trans (step_start_mono h1) ih

theorem step_done_start_inv {s s' : CoState} {l : Lab} (h : Step s l s')
    (hs : s.log.count .setup_done + (if s.pending = none then 0 else 1)
      ≤ s.log.count .setup_start) :
    s'.log.count .setup_done + (if s'.pending = none then 0 else 1)
      ≤ s'.log.count .setup_start := by
  cases h <;> simp_all [List.count_append]
  all_goals omega

theorem run_done_start_inv {s s' : CoState} {labs : List Lab} (h : Run s labs s')
    (hs : s.log.count .setup_done + (if s.pending = none then 0 else 1)
      ≤ s.log.count .setup_start) :
    s'.log.count .setup_done + (if s'.pending = none then 0 else 1)
      ≤ s'.log.count .setup_start := by
  induction h with
  | nil => exact hs
  | cons h1 _ ih => exact ih (step_done_start_inv h1 hs)

theorem run_failed_cycle {labs : List Lab} {s s' : CoState} (hrun : Run s labs s')
    (hready : s.ready = false)
    (hpend : s.pending = none ∨ ∃ ts, s.pending = some (ts, true))
    (hstart : s'.log.count .setup_start = s.log.count .setup_start) :
    s'.ready = false ∧ s'.renders = s.renders ∧
    s'.log.count .setup_done = s.log.count .setup_done ∧
    (s'.pending = none ∨ ∃ ts, s'.pending = some (ts, true)) := by
  induction hrun with
  | nil => exact ⟨hready, rfl, rfl, hpend⟩
  | @cons s0 s1 s2 l labs0 hstep hr ih =>
    have hm := run_start_mono hr
    cases hstep with
    | setup_call h =>
      exfalso
      simp only [List.count_append, List.count_cons, List.count_nil] at hm hstart
      simp at hm hstart
      omega
    | task_done ts0 failed t hp ht =>
      rcases hpend with hn | ⟨ts1, hsome⟩
      · rw [hn] at hp; cases hp
      · rw [hsome] at hp
        injection hp with hp1
        injection hp1 with hp2 hp3
        subst hp2; subst hp3
        have := ih hready (Or.inr ⟨ts1.erase t, rfl⟩) (by simpa using hstart)
        simpa using this
    | task_fail_first ts0 t hp ht =>
      rcases hpend with hn | ⟨ts1, hsome⟩
      · rw [hn] at hp; cases hp
      · rw [hsome] at hp
        injection hp with hp1
        injection hp1 with hp2 hp3
        cases hp3
    | task_fail_more ts0 t hp ht =>
      have := ih hready (Or.inr ⟨ts0.erase t, rfl⟩) (by simpa using hstart)
      simpa using this
    | setup_finish hp =>
      rcases hpend with hn | ⟨ts1, hsome⟩
      · rw [hn] at hp; cases hp
      · rw [hsome] at hp
        injection hp with hp1
        injection hp1 with hp2 hp3
        cases hp3
    | setup_abort hp =>
      have := ih hready (Or.inl rfl) (by simpa using hstart)
      simpa using this
    | compile_ready c h hc1 hc2 =>
      rw [hready] at h; cases h
    | compile_wait c h hc1 hc2 =>
      have := ih hready (by simpa using hpend) (by simpa using hstart)
      simpa using this
    | chain_error c h =>
      have := ih hready (by simpa using hpend)
        (by simp only [List.count_append, List.count_cons, List.count_nil] at hstart ⊢
            simp at hstart ⊢
            omega)
      simp only [List.count_append, List.count_cons, List.count_nil] at this ⊢
      constructor
      · exact this.1
      constructor
      · exact this.2.1
      constructor
      · have h2 := this.2.2.1
        simp at h2 ⊢
        omega
      · exact this.2.2.2

/-- C6: compile/compileStream never start rendering before the coordinator
is ready: a compile call in a ready state starts its render in that very
step; in a non-ready state it suspends as a setup_done once-listener; any
step that starts a render ends in a ready state; a suspended compile stays
suspended until a setup_finish step, whose setup_done notification releases
it; the notification fires exactly at the completion step of a setup cycle,
and along any run from the initial state setup_done never fires more often
than setup cycles started. -/
theorem c6_compile_waits_for_ready :
    (∀ (s : CoState) (c : Nat), s.ready = true → c ∉ s.waiters → c ∉ s.renders →
      Step s (.compileCall c) { s with renders := s.renders ++ [c] }) ∧
    (∀ (s : CoState) (c : Nat), s.ready = false → c ∉ s.waiters → c ∉ s.renders →
      Step s (.compileCall c) { s with waiters := s.waiters ++ [c] }) ∧
    (∀ (s : CoState) (l : Lab) (s' : CoState) (c : Nat), Step s l s' →
      c ∈ s'.renders → c ∉ s.renders → s'.ready = true) ∧
    (∀ (s : CoState) (l : Lab) (s' : CoState) (c : Nat), Step s l s' →
      c ∈ s.waiters → (c ∈ s'.waiters ∨ (l = .setupFinish ∧ c ∈ s'.renders))) ∧
    (∀ (s s' : CoState), Step s .setupFinish s' →
      s.pending = some ([], false) ∧ s'.log = s.log ++ [.setup_done]) ∧
    (∀ (labs : List Lab) (s : CoState), Run initState labs s →
      s.log.count .setup_done ≤ s.log.count .setup_start) := by
  refine ⟨?_, ?_, ?_, ?_, ?_, ?_⟩
  · intro s c h hc1 hc2
    exact Step.compile_ready s c h hc1 hc2
  · intro s c h hc1 hc2
    exact Step.compile_wait s c h hc1 hc2
  · intro s l s' c hstep hin hout
    cases hstep <;> simp_all
  · intro s l s' c hstep hw
    cases hstep with
    | setup_finish hp => exact Or.inr ⟨rfl, List.mem_append_right _ hw⟩
    | compile_wait c0 h hc1 hc2 => exact Or.inl (List.mem_append_left _ hw)
    | setup_call h => exact Or.inl hw
    | task_done ts failed t hp ht => exact Or.inl hw
    | task_fail_first ts t hp ht => exact Or.inl hw
    | task_fail_more ts t hp ht => exact Or.inl hw
    | setup_abort hp => exact Or.inl hw
    | compile_ready c0 h hc1 hc2 => exact Or.inl hw
    | chain_error c0 h => exact Or.inl hw
  · intro s s' hstep
    cases hstep with
    | setup_finish hp => exact ⟨hp, rfl⟩
  · intro labs s h
    have hinv := run_done_start_inv h (by simp [initState])
    have h2 : s.log.count .setup_done
        ≤ s.log.count .setup_done + (if s.pending = none then 0 else 1) :=
      Nat.le_add_right _ _
    exact le_trans h2 hinv

theorem c6_compile_waits_for_ready_witness :
    Step { ready := true, waiters := [], pending := none, renders := [], log := [],
           outcomes := [] }
      (.compileCall 0)
      { ready := true, waiters := [], pending := none, renders := [0], log := [],
        outcomes := [] } ∧
    Step { ready := false, waiters := [], pending := some (allTasks, false), renders := [],
           log := [.setup_start], outcomes := [] }
      (.compileCall 1)
      { ready := false, waiters := [1], pending := some (allTasks, false), renders := [],
        log := [.setup_start], outcomes := [] } :=
  ⟨c6_compile_waits_for_ready.1 _ 0 rfl (by decide) (by decide),
   c6_compile_waits_for_ready.2.1 _ 1 rfl (by decide) (by decide)⟩

/-- C7: a setup call begins by clearing the ready flag and emitting
setup_start with all four loads launched; the four loads may complete in
any order — every permutation of them is a valid schedule of one cycle,
ending with ready set and setup_done emitted — and a step can emit
setup_done only from a state in which every load has resolved and none
has failed (the fan-in barrier). -/
theorem c7_setup_fanout_barrier :
    (∀ s : CoState, s.pending = none →
      Step s .setupCall
        { s with ready := false, pending := some (allTasks, false),
                 log := s.log ++ [.setup_start] }) ∧
    (∀ (s : CoState) (order : List LoadTask), s.pending = none → order.Perm allTasks →
      Run s ([.setupCall] ++ order.map Lab.taskDone ++ [.setupFinish])
        { s with ready := true, pending := none, waiters := [],
                 renders := s.renders ++ s.waiters,
                 log := (s.log ++ [.setup_start]) ++ [.setup_done],
                 outcomes := s.outcomes ++ [.resolved] }) ∧
    (∀ (s : CoState) (l : Lab) (s' : CoState), Step s l s' →
      s'.log = s.log ++ [.setup_done] → s.pending = some ([], false)) := by
  refine ⟨?_, ?_, ?_⟩
  · intro s h
    exact Step.setup_call s h
  · intro s order hpend hperm
    refine Run.cons (Step.setup_call s hpend) ?_
    exact Run.snoc (run_taskDones order false allTasks hperm _ rfl)
      (Step.setup_finish _ rfl)
  · intro s l s' hstep hlog
    cases hstep <;> simp_all

theorem c7_setup_fanout_barrier_witness :
    Run initState
      [.setupCall, .taskDone .dataLoad, .taskDone .engineSetup,
       .taskDone .collectionLoad, .taskDone .localeLoad, .setupFinish]
      { ready := true, waiters := [], pending := none, renders := [],
        log := [.setup_start, .setup_done], outcomes := [.resolved] } :=
  c7_setup_fanout_barrier.2.1 initState
    [.dataLoad, .engineSetup, .collectionLoad, .localeLoad] rfl (by decide)

/-- C8 counterexample: a concrete build pass in which the data load fails.
The setup promise settles rejected, yet the coordinator emits no error
event for it and the compile chain that was suspended is neither rejected
nor run: it is still registered as a setup_done listener at the end of the
pass, with nothing rendered.  The only emit of the error event in the
source sits in the catch of the compile chains (lines 290, 314), and
onReady exposes no rejection path, so the claimed propagation to the
error event and the compile chain does not happen. -/
theorem c8_no_error_event_counterexample :
    Run initState
      [.setupCall, .compileCall 0, .taskFail .dataLoad, .taskDone .engineSetup,
       .taskDone .localeLoad, .taskDone .collectionLoad, .setupAbort]
      { ready := false, waiters := [0], pending := none, renders := [],
        log := [.setup_start], outcomes := [.rejected] } ∧
    ([Ev.setup_start].count Ev.errorEv = 0 ∧ [Ev.setup_start].count Ev.setup_done = 0) := by
  constructor
  · refine Run.cons (Step.setup_call _ rfl) ?_
    refine Run.cons (Step.compile_wait _ 0 rfl (by decide) (by decide)) ?_
    refine Run.cons (Step.task_fail_first _ _ .dataLoad rfl (by decide)) ?_
    refine Run.cons (Step.task_done _ _ _ .engineSetup rfl (by decide)) ?_
    refine Run.cons (Step.task_done _ _ _ .localeLoad rfl (by decide)) ?_
    refine Run.cons (Step.task_done _ _ _ .collectionLoad rfl (by decide)) ?_
    refine Run.cons (Step.setup_abort _ rfl) ?_
    exact Run.nil _
  · exact ⟨rfl, rfl⟩

/-- C8 amended: a failure in any of the fanned-out loads settles the whole
setup() promise rejected at the moment of the first failure, and for the
rest of that build pass — any continuation of the run that starts no new
setup cycle — the ready flag stays false, no setup_done notification fires
and no compile chain starts rendering, so no pages are rendered for that
pass; the failure is not routed to the coordinator error event and does
not reject the suspended compile chains, which keep waiting for the next
successful cycle. -/
theorem c8_setup_failure_contained :
    (∀ (s : CoState) (ts : List LoadTask) (t : LoadTask),
      s.pending = some (ts, false) → t ∈ ts →
      Step s (.taskFail t)
        { s with pending := some (ts.erase t, true),
                 outcomes := s.outcomes ++ [.rejected] }) ∧
    (∀ (labs : List Lab) (s s' : CoState) (ts : List LoadTask),
      Run s labs s' → s.pending = some (ts, true) → s.ready = false →
      s'.log.count .setup_start = s.log.count .setup_start →
      s'.ready = false ∧ s'.renders = s.renders ∧
      s'.log.count .setup_done = s.log.count .setup_done) := by
  constructor
  · intro s ts t hp ht
    exact Step.task_fail_first s ts t hp ht
  · intro labs s s' ts hrun hp hr hstart
    have h := run_failed_cycle hrun hr (Or.inr ⟨ts, hp⟩) hstart
    exact ⟨h.1, h.2.1, h.2.2.1⟩

theorem c8_setup_failure_contained_witness :
    Step { ready := false, waiters := [0], pending := some (allTasks, false), renders := [],
           log := [.setup_start], outcomes := [] }
      (.taskFail .dataLoad)
      { ready := false, waiters := [0], pending := some (allTasks.erase .dataLoad, true),
        renders := [], log := [.setup_start], outcomes := [.rejected] } ∧
    (({ ready := false, waiters := [0], pending := some ([], true), renders := [],
        log := [.setup_start], outcomes := [.rejected] } : CoState).ready = false ∧
     ({ ready := false, waiters := [0], pending := some ([], true), renders := [],
        log := [.setup_start], outcomes := [.rejected] } : CoState).renders
       = ({ ready := false, waiters := [0], pending := some ([.engineSetup], true),
            renders := [], log := [.setup_start], outcomes := [.rejected] } : CoState).renders ∧
     (({ ready := false, waiters := [0], pending := some ([], true), renders := [],
         log := [.setup_start], outcomes := [.rejected] } : CoState).log.count .setup_done
       = ({ ready := false, waiters := [0], pending := some ([.engineSetup], true),
            renders := [], log := [.setup_start], outcomes := [.rejected] } : CoState).log.count
           .setup_done)) :=
  ⟨c8_setup_failure_contained.1 _ allTasks .dataLoad rfl (by decide),
   c8_setup_failure_contained.2 [.taskDone .engineSetup] _ _ [.engineSetup]
     (Run.cons (Step.task_done _ _ _ .engineSetup rfl (by decide)) (Run.nil _))
     rfl rfl rfl⟩

theorem setKey_append_of_notin (l : List (String × JValue)) (k : String) (v : JValue)
    (h : k ∉ keysOf l) : setKey l k v = l ++ [(k, v)] := by
  induction l with
  | nil => rfl
  | cons p rest ih =>
    obtain ⟨k0, v0⟩ := p
    rw [keysOf_cons] at h
    simp only [List.mem_cons, not_or] at h
    have h0 : ¬ (k0 = k) := fun hk => h.1 hk.symm
    simp [setKey, h0, ih h.2]

theorem jlookup_append (l1 l2 : List (String × JValue)) (k : String) :
    jlookup (l1 ++ l2) k =
      match jlookup l1 k with
      | some v => some v
      | none => jlookup l2 k := by
  induction l1 with
  | nil => simp [jlookup]
  | cons p rest ih =>
    obtain ⟨k0, v0⟩ := p
    by_cases h : k0 = k
    · simp [jlookup, h]
    · simp [jlookup, h, ih]

theorem jlookup_append_singleton_self (l : List (String × JValue)) (k : String)
    (v : JValue) (h : k ∉ keysOf l) :
    jlookup (l ++ [(k, v)]) k = some v := by
  rw [jlookup_append, (jlookup_eq_none_iff l k).mpr h]
  simp [jlookup]

theorem jlookup_append_singleton_ne (l : List (String × JValue)) (k n : String)
    (v : JValue) (h : k ≠ n) :
    jlookup (l ++ [(n, v)]) k = jlookup l k := by
  rw [jlookup_append]
  have hn : ¬ (n = k) := fun hk => h hk.symm
  cases hl : jlookup l k with
  | some w => rfl
  | none => simp [jlookup, hn]

theorem loadCollections_go (dirs : List CollDir) :
    ∀ acc : List (String × JValue),
    (∀ d ∈ dirs, d.config.isSome → d.templateMatches ≠ []) →
    (∀ d ∈ dirs, d.name ∉ keysOf acc) →
    (dirs.map CollDir.name).Nodup →
    ∃ m, loadCollections dirs acc = .ok m ∧
      m.length = acc.length + (dirs.filter (fun d => d.config.isSome)).length ∧
      (∀ k, (∀ d ∈ dirs, d.name = k → d.config = none) → jlookup m k = jlookup acc k) ∧
      (∀ d ∈ dirs, ∀ cfg, d.config = some cfg → ∀ p c rest,
        d.templateMatches = (p, c) :: rest →
        jlookup m d.name = some (.obj (assign (assign [] cfg) [("template", .str c)]))) := by
  induction dirs with
  | nil =>
    intro acc _ _ _
    exact ⟨acc, rfl, by simp, fun k _ => rfl, by simp⟩
  | cons d rest ih =>
    intro acc hv hacc hnodup
    simp only [List.map_cons, List.nodup_cons] at hnodup
    cases hcfg : d.config with
    | none =>
      have hload : loadCollections (d :: rest) acc = loadCollections rest acc := by
        rw [loadCollections, hcfg]
      obtain ⟨m, h1, h2, h3, h4⟩ := ih acc
        (fun d0 hd0 => hv d0 (List.mem_cons_of_mem d hd0))
        (fun d0 hd0 => hacc d0 (List.mem_cons_of_mem d hd0)) hnodup.2
      refine ⟨m, by rw [hload, h1], ?_, ?_, ?_⟩
      · rw [h2]
        simp [List.filter_cons, hcfg]
      · intro k hk
        exact h3 k (fun d0 hd0 => hk d0 (List.mem_cons_of_mem d hd0))
      · intro d0 hd0 cfg hc0
        rcases List.mem_cons.mp hd0 with rfl | hd0m
        · rw [hcfg] at hc0; cases hc0
        · exact h4 d0 hd0m cfg hc0
    | some cfg =>
      have hne := hv d (List.mem_cons_self d rest) (by rw [hcfg]; rfl)
      cases htm : d.templateMatches with
      | nil => exact absurd htm hne
      | cons pc tm =>
        obtain ⟨p, c⟩ := pc
        have hload : loadCollections (d :: rest) acc
            = loadCollections rest
                (setKey acc d.name
                  (.obj (assign (assign [] cfg) [("template", .str c)]))) := by
          rw [loadCollections, hcfg, htm]
        set entry : JValue := .obj (assign (assign [] cfg) [("template", .str c)]) with hentry
        have hkey : d.name ∉ keysOf acc := hacc d (List.mem_cons_self d rest)
        have hset : setKey acc d.name entry = acc ++ [(d.name, entry)] :=
          setKey_append_of_notin acc d.name entry hkey
        have hacc' : ∀ d0 ∈ rest, d0.name ∉ keysOf (acc ++ [(d.name, entry)]) := by
          intro d0 hd0
          have hn1 : d0.name ∉ keysOf acc := hacc d0 (List.mem_cons_of_mem d hd0)
          have hn2 : d0.name ≠ d.name := by
            intro hcontra
            exact hnodup.1 (hcontra ▸ List.mem_map_of_mem CollDir.name hd0)
          simp [keysOf, List.map_append] at hn1 ⊢
          exact ⟨hn1, hn2⟩
        obtain ⟨m, h1, h2, h3, h4⟩ := ih (acc ++ [(d.name, entry)])
          (fun d0 hd0 => hv d0 (List.mem_cons_of_mem d hd0)) hacc' hnodup.2
        refine ⟨m, by rw [hload, hset, h1], ?_, ?_, ?_⟩
        · rw [h2]
          simp only [List.length_append, List.length_singleton, List.filter_cons]
          have : (d.config.isSome) = true := by rw [hcfg]; rfl
          simp [this]
          omega
        · intro k hk
          have hdk : d.name ≠ k := by
            intro hcontra
            have := hk d (List.mem_cons_self d rest) hcontra
            rw [hcfg] at this
            cases this
          rw [h3 k (fun d0 hd0 => hk d0 (List.mem_cons_of_mem d hd0)),
            jlookup_append_singleton_ne acc k d.name entry (fun hkk => hdk hkk.symm)]
        · intro d0 hd0 cfg0 hc0 p0 c0 rest0 htm0
          rcases List.mem_cons.mp hd0 with rfl | hd0m
          · rw [hcfg] at hc0
            injection hc0 with hc1
            subst hc1
            rw [htm] at htm0
            injection htm0 with hpc0 hrest0
            injection hpc0 with hp0 hc0eq
            subst hc0eq
            have hnotin : ∀ d1 ∈ rest, d1.name = d0.name → d1.config = none := by
              intro d1 hd1 hname
              exact absurd (hname ▸ List.mem_map_of_mem CollDir.name hd1) hnodup.1
            rw [h3 d0.name hnotin, jlookup_append_singleton_self acc d0.name entry hkey]
          · exact h4 d0 hd0m cfg0 hc0 p0 c0 rest0 htm0

/-- C9: for a collections folder whose child folders split into N with a
loadable configuration module (each with at least one template.* match)
and M without one, the collection load resolves with exactly N entries,
silently skipping the M invalid folders — their names are absent from the
mapping — and each loaded entry is the configuration module extended with
the contents of the FIRST file the template.* glob matched. -/
theorem c9_collections_loading (dirs : List CollDir)
    (hn : (dirs.map CollDir.name).Nodup)
    (hv : ∀ d ∈ dirs, d.config.isSome → d.templateMatches ≠ []) :
    ∃ m, loadCollections dirs [] = .ok m ∧
      m.length = (dirs.filter (fun d => d.config.isSome)).length ∧
      (∀ d ∈ dirs, ∀ cfg, d.config = some cfg → ∀ p c rest,
        d.templateMatches = (p, c) :: rest →
        jlookup m d.name = some (.obj (assign (assign [] cfg) [("template", .str c)]))) ∧
      (∀ d ∈ dirs, d.config = none → jlookup m d.name = none) := by
  obtain ⟨m, h1, h2, h3, h4⟩ := loadCollections_go dirs [] hv (by simp [keysOf]) hn
  refine ⟨m, h1, by simpa using h2, h4, ?_⟩
  · intro d hd hcfg
    have hnotin : ∀ d1 ∈ dirs, d1.name = d.name → d1.config = none := by
      intro d1 hd1 hname
      by_contra hc
      cases hcn : d1.config with
      | none => exact hc hcn
      | some cfg1 =>
        have hd1d : d1 = d ∨ d1 ≠ d := Classical.em _
        rcases hd1d with rfl | hne
        · rw [hcfg] at hcn; cases hcn
        · have : (List.map CollDir.name dirs).Nodup := hn
          have hij := List.inj_on_of_nodup_map this hd1 hd hname
          exact hne hij
    rw [h3 d.name hnotin]
    rfl

theorem c9_collections_loading_witness :
    ∃ m, loadCollections
        [{ name := "blog", config := some [("layout", .str "post")],
           templateMatches := [("blog/template.hbs", "TPL1"), ("blog/template.ejs", "TPL2")] },
         { name := "bad", config := none, templateMatches := [] }] [] = .ok m ∧
      m.length = 1 ∧
      jlookup m "blog" = some (.obj [("layout", .str "post"), ("template", .str "TPL1")]) ∧
      jlookup m "bad" = none := by
  obtain ⟨m, h1, h2, h3, h4⟩ := c9_collections_loading
    [{ name := "blog", config := some [("layout", .str "post")],
       templateMatches := [("blog/template.hbs", "TPL1"), ("blog/template.ejs", "TPL2")] },
     { name := "bad", config := none, templateMatches := [] }]
    (by decide) (by decide)
  refine ⟨m, h1, by rw [h2]; rfl, ?_, ?_⟩
  · exact h3 _ (List.mem_cons_self _ _) [("layout", .str "post")] rfl
      "blog/template.hbs" "TPL1" [("blog/template.ejs", "TPL2")] rfl
  · exact h4 _ (List.mem_cons_of_mem _ (List.mem_cons_self _ _)) rfl

/-- C10: global data, the locale table and the collections are replaced
wholesale on every setup call — the engine state a setup produces is a
function of the filesystem contents alone, independent of the previous
state, with no partial-update path — and once loaded they are read-only
for the build pass: assembling page data threads the engine state through
unchanged, and so does the render pass over all pages. -/
theorem c10_wholesale_replacement_readonly :
    (∀ (st st' : EngineState) (fs : FileSys), setupState st fs = setupState st' fs) ∧
    (∀ (opts : Options) (caps : EngineCaps) (ext : Collab) (st : EngineState)
       (file : VFile) (attrs : List (String × JValue)) (error : JValue),
      (getPageDataSt opts caps ext st file attrs error).1 = st ∧
      (getPageDataSt opts caps ext st file attrs error).2
        = getPageData opts caps st ext file attrs error) ∧
    (∀ (opts : Options) (caps : EngineCaps) (ext : Collab) (st : EngineState)
       (pages : List (VFile × List (String × JValue) × JValue)),
      (renderAllSt opts caps ext st pages).1 = st) := by
  refine ⟨?_, ?_, ?_⟩
  · intro st st' fs
    cases h : loadCollections fs.collectionDirs [] <;> simp [setupState, h]
  · intro opts caps ext st file attrs error
    exact ⟨rfl, rfl⟩
  · intro opts caps ext st pages
    rfl
